import Mathlib

/-!
# Verification of the fsdterm terminal emulator against its specification

The repository contains two prototypes of the terminal engine:

* `src/main.rs` — a self-contained `Console` (single screen buffer, cursor,
  CSI parsing).  Embedded below in namespace `MainRs`.
* `src/console.rs` — a two-screen `Console` (primary and alternate buffer,
  cursor reporting, alternate-screen switching) that delegates per-screen
  operations to `crate::screen_buffer::ScreenBuffer`.  The file
  `src/screen_buffer.rs` is not part of the sources, so `ScreenBuffer` is
  modelled from the specification (§4.A) — each such definition carries a
  doc comment starting with `Modelled from the spec:`.  The `Console` layer
  of `src/console.rs` itself is embedded faithfully from the source in
  namespace `ConsoleRs`.

Machine integers (`i32`) are modelled as `Int`; `usize` casts of in-bounds
indices become `Int.toNat`.  Rust would panic on an out-of-bounds `Vec`
index; the model uses `List.set` (a no-op out of bounds) and `List.getD`
(default `0`), and panics that matter to a claim (the `params[1]` index in
the `H` handler of `src/main.rs`) are modelled with `Option`.
-/

namespace Fsdterm

/-- `l.getD i 0` — cell access used throughout; `0` is the empty cell. -/
def nth (l : List Nat) (i : Nat) : Nat := l.getD i 0

/-- Rust `<i32 as FromStr>::from_str` on the decimal digits of a byte list:
`none` on an empty list, a non-digit byte, or an out-of-range value. -/
def digitsVal : List Nat → Option Nat
  | [] => none
  | l => l.foldl
      (fun acc b => acc.bind
        (fun a => if 48 ≤ b ∧ b ≤ 57 then some (a * 10 + (b - 48)) else none))
      (some 0)

/-- Rust `String::parse::<i32>()` over the bytes of the string: an optional
sign followed by decimal digits, rejecting i32 overflow. -/
def parse_i32 : List Nat → Option Int
  | 43 :: rest =>
      (digitsVal rest).bind
        (fun n => if n ≤ 2147483647 then some (n : Int) else none)
  | 45 :: rest =>
      (digitsVal rest).bind
        (fun n => if n ≤ 2147483648 then some (-(n : Int)) else none)
  | l =>
      (digitsVal l).bind
        (fun n => if n ≤ 2147483647 then some (n : Int) else none)

/-- Rust `str::split(";")` on a byte list (`;` = 59); always non-empty,
an empty input yields `[[]]` just as `"".split(";")` yields `[""]`. -/
def splitSemi : List Nat → List (List Nat)
  | [] => [[]]
  | b :: rest =>
    match splitSemi rest with
    | [] => [[]]
    | g :: gs => if b = 59 then [] :: g :: gs else (b :: g) :: gs

/-- One step of the parameter/final-byte scan of `proc_csi`: bytes
`0x30..=0x3F` are collected as parameter bytes, each byte `0x40..=0x7F`
overwrites the final byte, anything else is skipped. -/
def csi_step (acc : List Nat × Option Nat) (ch : Nat) : List Nat × Option Nat :=
  if 48 ≤ ch ∧ ch ≤ 63 then (acc.fst ++ [ch], acc.snd)
  else if 64 ≤ ch ∧ ch ≤ 127 then (acc.fst, some ch)
  else acc

/-- The scan both `proc_csi` implementations run over `csi_buf[1..]`. -/
def csi_scan (l : List Nat) : List Nat × Option Nat :=
  l.foldl csi_step ([], none)

/-- ASCII decimal digits of a natural number (used by the cursor report). -/
def decDigits (n : Nat) : List Nat := (Nat.toDigits 10 n).map Char.toNat

namespace MainRs

/-- The `Console` of `src/main.rs` (graphics-only fields `font_size`,
`scaler` and `canvas` are omitted; they never affect the claims). -/
structure Console where
  cursor : Int × Int
  size : Int × Int
  buffer : List Nat
  csi_buf : List Nat
deriving DecidableEq, Repr

/-- `Console::new` of `src/main.rs`. -/
def Console.new (size : Int × Int) : Console :=
  { cursor := (0, 0)
    size := size
    buffer := List.replicate (size.fst * size.snd).toNat 0
    csi_buf := [] }

/-- `Console::clear_line` of `src/main.rs`: row `cursor.1` is cleared to `0`. -/
def Console.clear_line (c : Console) : Console :=
  let buf :=
    (List.range c.size.fst.toNat).foldl
      (fun b x => b.set ((x : Int) + c.cursor.snd * c.size.fst).toNat 0)
      c.buffer
  { c with buffer := buf }

/-- `Console::scroll_up` of `src/main.rs`: the nested in-place loops,
column by column, row by row ascending. -/
def Console.scroll_up (c : Console) : Console :=
  let buf :=
    (List.range c.size.fst.toNat).foldl
      (fun b x =>
        (List.range (c.size.snd - 1).toNat).foldl
          (fun b2 y =>
            b2.set ((x : Int) + (y : Int) * c.size.fst).toNat
              (nth b2 ((x : Int) + ((y : Int) + 1) * c.size.fst).toNat))
          b)
      c.buffer
  { c with buffer := buf }

/-- `Console::cursor_newline` of `src/main.rs`. -/
def Console.cursor_newline (c : Console) : Console :=
  let c0 := { c with cursor := (0, c.cursor.snd) }
  if c.cursor.snd < c.size.snd - 1 then
    { c0 with cursor := (0, c.cursor.snd + 1) }
  else
    c0.scroll_up.clear_line

/-- `Console::cursor_inc` of `src/main.rs`. -/
def Console.cursor_inc (c : Console) : Console :=
  if c.cursor.fst < c.size.fst - 1 then
    { c with cursor := (c.cursor.fst + 1, c.cursor.snd) }
  else
    c.cursor_newline

/-- `Console::backspace` of `src/main.rs`. -/
def Console.backspace (c : Console) : Console :=
  if c.cursor.fst > 0 then { c with cursor := (c.cursor.fst - 1, c.cursor.snd) }
  else c

/-- `Console::set_char` of `src/main.rs`.  Note there is no carriage-return
case: any byte other than `\n`, BEL and BS is written into the grid. -/
def Console.set_char (c : Console) (ch : Nat) (inc : Bool) : Console :=
  if ch = 10 then c.cursor_newline
  else if ch = 7 then c
  else if ch = 8 then c.backspace
  else
    let buf := c.buffer.set (c.cursor.fst + c.cursor.snd * c.size.fst).toNat ch
    let c2 := { c with buffer := buf }
    if inc then c2.cursor_inc else c2

/-- `Console::move_cursor` of `src/main.rs`: the clamping to
`[0, W-1] × [0, H-1]` happens only in the relative (`else`) branch; the
absolute branch stores `(x, y)` unchanged. -/
def Console.move_cursor (c : Console) (x y : Int) (abs : Bool) : Console :=
  if abs then { c with cursor := (x, y) }
  else
    let nx := c.cursor.fst + x
    let ny := c.cursor.snd + y
    { c with cursor :=
        (max (min nx (c.size.fst - 1)) 0, max (min ny (c.size.snd - 1)) 0) }

/-- `Console::erase_line` of `src/main.rs` (fills with the space byte 32). -/
def Console.erase_line (c : Console) (param : Int) : Console :=
  if param = 0 then
    let buf :=
      (List.range (c.size.fst - c.cursor.fst).toNat).foldl
        (fun b k =>
          b.set ((c.cursor.fst + (k : Int)) + c.cursor.snd * c.size.fst).toNat 32)
        c.buffer
    { c with buffer := buf }
  else if param = 1 then
    let buf :=
      (List.range (c.cursor.fst + 1).toNat).foldl
        (fun b k => b.set ((k : Int) + c.cursor.snd * c.size.fst).toNat 32)
        c.buffer
    { c with buffer := buf }
  else if param = 2 then
    let buf :=
      (List.range c.size.fst.toNat).foldl
        (fun b k => b.set ((k : Int) + c.cursor.snd * c.size.fst).toNat 32)
        c.buffer
    { c with buffer := buf }
  else c

/-- `Console::proc_csi` of `src/main.rs`.  Returns `none` where the Rust
code panics: the `H` handler indexes `params[1]`, which is out of bounds
whenever the parameter string contains no `;`. -/
def Console.proc_csi (c : Console) : Option Console :=
  if c.csi_buf = [] then some c
  else if c.csi_buf.headD 0 ≠ 27 then some c
  else
    let sc := csi_scan c.csi_buf.tail
    let param := sc.fst
    match sc.snd with
    | none => some { c with csi_buf := [] }
    | some f =>
      if f = 68 then
        some { c.move_cursor (-((parse_i32 param).getD 1)) 0 false with csi_buf := [] }
      else if f = 67 then
        some { c.move_cursor ((parse_i32 param).getD 1) 0 false with csi_buf := [] }
      else if f = 65 then
        some { c.move_cursor 0 (-((parse_i32 param).getD 1)) false with csi_buf := [] }
      else if f = 66 then
        some { c.move_cursor 0 ((parse_i32 param).getD 1) false with csi_buf := [] }
      else if f = 72 then
        let params := (splitSemi param).map (fun q => (parse_i32 q).getD 1 - 1)
        match params with
        | p0 :: p1 :: _ => some { c.move_cursor p0 p1 true with csi_buf := [] }
        | _ => none
      else if f = 75 then
        some { c.erase_line ((parse_i32 param).getD 0) with csi_buf := [] }
      else
        some { c with csi_buf := [] }

/-- `Console::put_char` of `src/main.rs`. -/
def Console.put_char (c : Console) (ch : Nat) : Option Console :=
  if ch = 27 then some { c with csi_buf := [27] }
  else if c.csi_buf ≠ [] then
    if c.csi_buf.length = 1 ∧ ch = 91 then
      some { c with csi_buf := c.csi_buf ++ [ch] }
    else if 64 ≤ ch ∧ ch < 128 then
      Console.proc_csi { c with csi_buf := c.csi_buf ++ [ch] }
    else
      some { c with csi_buf := c.csi_buf ++ [ch] }
  else
    some (c.set_char ch true)

/-- Feed a byte list through `put_char`, propagating a panic as `none`. -/
def feedm : Console → List Nat → Option Console
  | c, [] => some c
  | c, b :: rest =>
    match c.put_char b with
    | none => none
    | some c2 => feedm c2 rest

/-- `set_shift` of `src/main.rs`: the shift transform of the key map. -/
def set_shift (ch : Nat) (shift : Bool) : Nat :=
  if shift = false then ch
  else if 97 ≤ ch ∧ ch ≤ 122 then ch - 97 + 65
  else if ch = 49 then 33
  else if ch = 50 then 64
  else if ch = 51 then 35
  else if ch = 52 then 36
  else if ch = 53 then 37
  else if ch = 54 then 94
  else if ch = 55 then 38
  else if ch = 56 then 42
  else if ch = 57 then 40
  else if ch = 48 then 41
  else if ch = 96 then 126
  else if ch = 44 then 60
  else if ch = 46 then 62
  else if ch = 47 then 63
  else if ch = 92 then 124
  else ch

/-- The KeyDown modifier handling of `start` in `src/main.rs` (lines
455-466): when ctrl is held and the first byte of the pending key sequence
equals `c` (99), the whole sequence is replaced by `[3]`; afterwards each
byte is written through `set_shift`.  No other ctrl mapping exists. -/
def keyBytes (seq : List Nat) (shift ctrl : Bool) : List Nat :=
  let seq2 := if ctrl ∧ seq.headD 0 = 99 then [3] else seq
  seq2.map (fun b => set_shift b shift)

end MainRs

namespace ConsoleRs

/-- Modelled from the spec: `src/console.rs` uses
`crate::screen_buffer::ScreenBuffer`, whose file `src/screen_buffer.rs` is
not among the sources.  Data model from spec §3: a dense row-major grid of
`W·H` bytes and a cursor, created zeroed with the cursor at `(0,0)`. -/
structure ScreenBuffer where
  size : Int × Int
  buffer : List Nat
  cursor : Int × Int
deriving DecidableEq, Repr

/-- Modelled from the spec: `ScreenBuffer` construction (spec §3,
"Created with zeroed cells and cursor at (0,0)"). -/
def ScreenBuffer.new (size : Int × Int) : ScreenBuffer :=
  { size := size
    buffer := List.replicate (size.fst * size.snd).toNat 0
    cursor := (0, 0) }

/-- Modelled from the spec: `scroll_up` (spec §4.A, "shift rows 1..H up by
one; content of the old top row is discarded"). -/
def ScreenBuffer.scroll_up (sb : ScreenBuffer) : ScreenBuffer :=
  let w := sb.size.fst.toNat
  let h := sb.size.snd.toNat
  let buf :=
    (List.range sb.buffer.length).map
      (fun i => if i < w * (h - 1) then nth sb.buffer (i + w) else nth sb.buffer i)
  { sb with buffer := buf }

/-- Modelled from the spec: `newline` (spec §4.A, "`cx = 0`; if `cy < H-1`,
`cy += 1`; else `scroll_up` and clear the bottom row to spaces"). -/
def ScreenBuffer.newline (sb : ScreenBuffer) : ScreenBuffer :=
  if sb.cursor.snd < sb.size.snd - 1 then
    { sb with cursor := (0, sb.cursor.snd + 1) }
  else
    let sb2 := sb.scroll_up
    let w := sb.size.fst.toNat
    let h := sb.size.snd.toNat
    let buf :=
      (List.range sb2.buffer.length).map
        (fun i => if w * (h - 1) ≤ i then 32 else nth sb2.buffer i)
    { sb2 with buffer := buf, cursor := (0, sb.cursor.snd) }

/-- Modelled from the spec: `cursor_inc` (spec §4.A, "if `cx < W-1`,
`cx += 1`; else perform newline"). -/
def ScreenBuffer.cursor_inc (sb : ScreenBuffer) : ScreenBuffer :=
  if sb.cursor.fst < sb.size.fst - 1 then
    { sb with cursor := (sb.cursor.fst + 1, sb.cursor.snd) }
  else
    sb.newline

/-- Modelled from the spec: `write_char(ch, advance)` (spec §4.A), named
`set_char` as in the call sites of `src/console.rs`: LF runs `newline`,
BS moves left without erasing, BEL is a no-op, CR sets `cx = 0`, any other
byte is written at `(cx, cy)` and the cursor advances when requested. -/
def ScreenBuffer.set_char (sb : ScreenBuffer) (ch : Nat) (advance : Bool) :
    ScreenBuffer :=
  if ch = 10 then sb.newline
  else if ch = 8 then
    if sb.cursor.fst > 0 then { sb with cursor := (sb.cursor.fst - 1, sb.cursor.snd) }
    else sb
  else if ch = 7 then sb
  else if ch = 13 then { sb with cursor := (0, sb.cursor.snd) }
  else
    let buf := sb.buffer.set (sb.cursor.fst + sb.cursor.snd * sb.size.fst).toNat ch
    let sb2 := { sb with buffer := buf }
    if advance then sb2.cursor_inc else sb2

/-- Modelled from the spec: `move_cursor(dx, dy, absolute)` (spec §4.A,
"if `absolute`, set `(cx, cy) = (dx, dy)`; else `(cx, cy) += (dx, dy)`.
Clamp both to `[0, W-1] × [0, H-1]`"). -/
def ScreenBuffer.move_cursor (sb : ScreenBuffer) (x y : Int) (abs : Bool) :
    ScreenBuffer :=
  let t := if abs then (x, y) else (sb.cursor.fst + x, sb.cursor.snd + y)
  { sb with cursor :=
      (max (min t.fst (sb.size.fst - 1)) 0, max (min t.snd (sb.size.snd - 1)) 0) }

/-- Modelled from the spec: `erase_line(param)` (spec §4.A). -/
def ScreenBuffer.erase_line (sb : ScreenBuffer) (param : Int) : ScreenBuffer :=
  let w := sb.size.fst.toNat
  let cx := sb.cursor.fst.toNat
  let cy := sb.cursor.snd.toNat
  if param = 0 then
    let buf :=
      (List.range sb.buffer.length).map
        (fun i => if i / w = cy ∧ cx ≤ i % w then 32 else nth sb.buffer i)
    { sb with buffer := buf }
  else if param = 1 then
    let buf :=
      (List.range sb.buffer.length).map
        (fun i => if i / w = cy ∧ i % w ≤ cx then 32 else nth sb.buffer i)
    { sb with buffer := buf }
  else if param = 2 then
    let buf :=
      (List.range sb.buffer.length).map
        (fun i => if i / w = cy then 32 else nth sb.buffer i)
    { sb with buffer := buf }
  else sb

/-- Modelled from the spec: `erase_display(param)` (spec §4.A). -/
def ScreenBuffer.erase_display (sb : ScreenBuffer) (param : Int) : ScreenBuffer :=
  let pos := (sb.cursor.fst + sb.cursor.snd * sb.size.fst).toNat
  if param = 0 then
    let buf :=
      (List.range sb.buffer.length).map
        (fun i => if pos ≤ i then 32 else nth sb.buffer i)
    { sb with buffer := buf }
  else if param = 1 then
    let buf :=
      (List.range sb.buffer.length).map
        (fun i => if i ≤ pos then 32 else nth sb.buffer i)
    { sb with buffer := buf }
  else if param = 2 then
    let buf := (List.range sb.buffer.length).map (fun _ => 32)
    { sb with buffer := buf }
  else sb

/-- Modelled from the spec: `report_cursor(param)` (spec §4.A, "if
`param == 6`, return the byte sequence for CPR: `ESC [ (cy+1) ; (cx+1) R`
as ASCII.  Otherwise return no response"). -/
def ScreenBuffer.report_cursor (sb : ScreenBuffer) (param : Int) :
    Option (List Nat) :=
  if param = 6 then
    some ([27, 91] ++ decDigits (sb.cursor.snd + 1).toNat ++ [59]
      ++ decDigits (sb.cursor.fst + 1).toNat ++ [82])
  else none

/-- The `Console` of `src/console.rs` (graphics fields omitted).  The
source holds `screen: Vec<ScreenBuffer>` of exactly two buffers, indexed by
`sid`; the model names them `screen0` and `screen1`. -/
structure Console where
  size : Int × Int
  csi_buf : List Nat
  screen0 : ScreenBuffer
  screen1 : ScreenBuffer
  sid : Nat
deriving DecidableEq, Repr

/-- `Console::new` of `src/console.rs`. -/
def Console.new (size : Int × Int) : Console :=
  { size := size
    csi_buf := []
    screen0 := ScreenBuffer.new size
    screen1 := ScreenBuffer.new size
    sid := 0 }

/-- `self.screen[self.sid]`. -/
def Console.active (c : Console) : ScreenBuffer :=
  if c.sid = 0 then c.screen0 else c.screen1

/-- Applying an operation to `self.screen[self.sid]`. -/
def Console.withActive (c : Console) (f : ScreenBuffer → ScreenBuffer) : Console :=
  if c.sid = 0 then { c with screen0 := f c.screen0 }
  else { c with screen1 := f c.screen1 }

/-- The full-buffer literal `ESC[?1049h` tested by the `h` handler. -/
def altOn : List Nat := [27, 91, 63, 49, 48, 52, 57, 104]

/-- The full-buffer literal `ESC[?1049l` tested by the `l` handler. -/
def altOff : List Nat := [27, 91, 63, 49, 48, 52, 57, 108]

/-- The `match final_byte` arm of `Console::proc_csi` in `src/console.rs`:
dispatch the decoded final byte `f` with parameter bytes `param` against
the active screen (the `h`/`l` handlers compare the full `csi_buf` against
the `ESC[?1049h` / `ESC[?1049l` literals); `csi_buf` is cleared. -/
def Console.dispatch (c : Console) (param : List Nat) (f : Nat) :
    Console × Option (List Nat) :=
  if f = 68 then
    ({ c.withActive (fun s => s.move_cursor (-((parse_i32 param).getD 1)) 0 false)
        with csi_buf := [] }, none)
  else if f = 67 then
    ({ c.withActive (fun s => s.move_cursor ((parse_i32 param).getD 1) 0 false)
        with csi_buf := [] }, none)
  else if f = 65 then
    ({ c.withActive (fun s => s.move_cursor 0 (-((parse_i32 param).getD 1)) false)
        with csi_buf := [] }, none)
  else if f = 66 then
    ({ c.withActive (fun s => s.move_cursor 0 ((parse_i32 param).getD 1) false)
        with csi_buf := [] }, none)
  else if f = 72 then
    let params := (splitSemi param).map (fun q => (parse_i32 q).getD 1 - 1)
    if params.length = 1 then
      ({ c.withActive (fun s => s.move_cursor 1 1 true) with csi_buf := [] }, none)
    else
      ({ c.withActive
          (fun s => s.move_cursor (params.getD 1 0) (params.getD 0 0) true)
          with csi_buf := [] }, none)
  else if f = 74 then
    ({ c.withActive (fun s => s.erase_display ((parse_i32 param).getD 0))
        with csi_buf := [] }, none)
  else if f = 75 then
    ({ c.withActive (fun s => s.erase_line ((parse_i32 param).getD 0))
        with csi_buf := [] }, none)
  else if f = 109 then
    ({ c with csi_buf := [] }, none)
  else if f = 110 then
    ({ c with csi_buf := [] },
      (c.active).report_cursor ((parse_i32 param).getD 0))
  else if f = 104 then
    if c.csi_buf = altOn then ({ c with csi_buf := [], sid := 1 }, none)
    else ({ c with csi_buf := [] }, none)
  else if f = 108 then
    if c.csi_buf = altOff then ({ c with csi_buf := [], sid := 0 }, none)
    else ({ c with csi_buf := [] }, none)
  else
    ({ c with csi_buf := [] }, none)

/-- `Console::proc_csi` of `src/console.rs`: scan `csi_buf[1..]` for
parameter bytes and the final byte, then dispatch on the final byte. -/
def Console.proc_csi (c : Console) : Console × Option (List Nat) :=
  if c.csi_buf = [] then (c, none)
  else if c.csi_buf.headD 0 ≠ 27 then (c, none)
  else
    match csi_scan c.csi_buf.tail with
    | (_, none) => ({ c with csi_buf := [] }, none)
    | (param, some f) => Console.dispatch c param f

/-- `Console::put_char` of `src/console.rs`: returns the new console state
and the optional response bytes. -/
def Console.put_char (c : Console) (ch : Nat) : Console × Option (List Nat) :=
  if ch = 27 then ({ c with csi_buf := [27] }, none)
  else if c.csi_buf ≠ [] then
    if c.csi_buf.length = 1 ∧ ch = 91 then
      ({ c with csi_buf := c.csi_buf ++ [ch] }, none)
    else if 64 ≤ ch ∧ ch < 128 then
      Console.proc_csi { c with csi_buf := c.csi_buf ++ [ch] }
    else
      ({ c with csi_buf := c.csi_buf ++ [ch] }, none)
  else if ch = 13 then
    (c.withActive (fun s => s.set_char 13 false), none)
  else
    (c.withActive (fun s => s.set_char ch true), none)

/-- Feed a byte list, collecting the responses in order. -/
def feedc : Console → List Nat → Console × List (List Nat)
  | c, [] => (c, [])
  | c, b :: rest =>
    let r := c.put_char b
    let rr := feedc r.fst rest
    (rr.fst, (match r.snd with | some x => [x] | none => []) ++ rr.snd)

/-- Feed a byte list, keeping only the final state. -/
def feed (c : Console) (l : List Nat) : Console := (feedc c l).fst

end ConsoleRs

/-- A concrete 5×4 console whose active (primary) cursor sits at `(3, 2)`;
used as evaluation input for witnesses. -/
def c6Console : ConsoleRs.Console :=
  { size := (5, 4)
    csi_buf := []
    screen0 := { ConsoleRs.ScreenBuffer.new (5, 4) with cursor := (3, 2) }
    screen1 := ConsoleRs.ScreenBuffer.new (5, 4)
    sid := 0 }

theorem nth_set_self (l : List Nat) : ∀ i : Nat, i < l.length → ∀ v : Nat,
    nth (l.set i v) i = v := by
  induction l with
  | nil => intro i h; simp at h
  | cons a t ih =>
    intro i h v
    cases i with
    | zero => rfl
    | succ j => simpa [nth, List.set, List.getD] using ih j (by simpa using h) v

theorem nth_set_ne (l : List Nat) : ∀ i j : Nat, i ≠ j → ∀ v : Nat,
    nth (l.set j v) i = nth l i := by
  induction l with
  | nil => intro i j h v; rfl
  | cons a t ih =>
    intro i j h v
    cases j with
    | zero => cases i with
      | zero => exact absurd rfl h
      | succ k => rfl
    | succ j2 => cases i with
      | zero => rfl
      | succ k =>
        simpa [nth, List.set, List.getD] using ih k j2 (fun hh => h (by omega)) v

theorem nth_of_le (l : List Nat) : ∀ i : Nat, l.length ≤ i → nth l i = 0 := by
  induction l with
  | nil => intro i h; rfl
  | cons a t ih =>
    intro i h
    cases i with
    | zero => simp at h
    | succ j => simpa [nth, List.getD] using ih j (by simpa using h)

/-- C1: refuting evaluation.  Feeding the bytes of `ESC[999;999H` to a fresh
80×24 `Console` of `src/main.rs` leaves the cursor at `(998, 998)`, far
outside the grid: the absolute branch of `move_cursor` never clamps, so the
claimed invariant `0 ≤ cx < W ∧ 0 ≤ cy < H` does not survive CSI cursor
positioning. -/
theorem c1_cup_escapes_grid :
    (MainRs.feedm (MainRs.Console.new (80, 24))
        [27, 91, 57, 57, 57, 59, 57, 57, 57, 72]).map (fun c => c.cursor)
      = some (998, 998)
    ∧ ¬ ((998 : Int) < 80 ∧ (998 : Int) < 24) := by
  exact ⟨by decide, by decide⟩

/-- C2: refuting evaluation.  `move_cursor(100, 100, true)` on a fresh 80×24
`Console` of `src/main.rs` stores the cursor `(100, 100)` unchanged: the
claimed clamping to `[0, W-1] × [0, H-1]` happens only in relative mode. -/
theorem c2_absolute_unclamped :
    ((MainRs.Console.new (80, 24)).move_cursor 100 100 true).cursor = (100, 100)
    ∧ ¬ ((100 : Int) < 80) := by
  exact ⟨by decide, by decide⟩

/-- C3: refuting evaluation.  In `src/console.rs` a CUP sequence with a
single parameter dispatches `move_cursor(1, 1, true)`: feeding `ESC[5H` or
`ESC[H` to a fresh 80×24 console puts the active cursor at `(1, 1)`, not at
the home position `(0, 0)`.  (The `src/main.rs` prototype instead panics on
`params[1]`.) -/
theorem c3_single_param_cup_not_home :
    ((ConsoleRs.feed (ConsoleRs.Console.new (80, 24)) [27, 91, 53, 72]).active).cursor
        = (1, 1)
    ∧ ((ConsoleRs.feed (ConsoleRs.Console.new (80, 24)) [27, 91, 72]).active).cursor
        = (1, 1)
    ∧ (MainRs.feedm (MainRs.Console.new (80, 24)) [27, 91, 53, 72] = none)
    ∧ (((1 : Int), (1 : Int)) ≠ ((0 : Int), (0 : Int))) := by
  exact ⟨by decide, by decide, by decide, by decide⟩

/-- C4: feeding CR (byte 13) with no escape sequence pending returns no
response, leaves every grid cell of both screens and `sid` unchanged, and
sets the active cursor's column to `0` keeping its row. -/
theorem c4_carriage_return (c : ConsoleRs.Console) (h : c.csi_buf = []) :
    (c.put_char 13).snd = none
    ∧ ((c.put_char 13).fst.active).buffer = (c.active).buffer
    ∧ ((c.put_char 13).fst.active).cursor = (0, (c.active).cursor.snd)
    ∧ ((c.put_char 13).fst).screen0.buffer = c.screen0.buffer
    ∧ ((c.put_char 13).fst).screen1.buffer = c.screen1.buffer
    ∧ ((c.put_char 13).fst).sid = c.sid := by
  by_cases hsid : c.sid = 0 <;>
    simp [ConsoleRs.Console.put_char, ConsoleRs.Console.withActive,
      ConsoleRs.Console.active, ConsoleRs.ScreenBuffer.set_char, h, hsid]

/-- C4 witness: the carriage-return theorem applied to a fresh 4×3 console. -/
theorem c4_carriage_return_witness :
    (ConsoleRs.Console.new (4, 3)).csi_buf = []
    ∧ (((ConsoleRs.Console.new (4, 3)).put_char 13).snd = none
      ∧ (((ConsoleRs.Console.new (4, 3)).put_char 13).fst.active).buffer
          = ((ConsoleRs.Console.new (4, 3)).active).buffer
      ∧ (((ConsoleRs.Console.new (4, 3)).put_char 13).fst.active).cursor
          = (0, ((ConsoleRs.Console.new (4, 3)).active).cursor.snd)
      ∧ (((ConsoleRs.Console.new (4, 3)).put_char 13).fst).screen0.buffer
          = (ConsoleRs.Console.new (4, 3)).screen0.buffer
      ∧ (((ConsoleRs.Console.new (4, 3)).put_char 13).fst).screen1.buffer
          = (ConsoleRs.Console.new (4, 3)).screen1.buffer
      ∧ (((ConsoleRs.Console.new (4, 3)).put_char 13).fst).sid
          = (ConsoleRs.Console.new (4, 3)).sid) :=
  ⟨rfl, c4_carriage_return (ConsoleRs.Console.new (4, 3)) rfl⟩

/-- C5: counterexample.  On the 2×2 `src/main.rs` console with grid
`[65, 66, 67, 68]` and cursor `(0, 1)` (the last row), feeding `\n` scrolls
and leaves the bottom row filled with `0`, not with the space byte `32`
the claim demands: `clear_line` writes `0`. -/
theorem c5_bottom_row_cleared_to_zero_not_space :
    (MainRs.Console.put_char ⟨(0, 1), (2, 2), [65, 66, 67, 68], []⟩ 10).map
        (fun c => c.buffer) = some [67, 68, 0, 0]
    ∧ (MainRs.Console.put_char ⟨(0, 1), (2, 2), [65, 66, 67, 68], []⟩ 10).map
        (fun c => c.buffer) ≠ some [67, 68, 32, 32]
    ∧ (MainRs.Console.put_char ⟨(0, 1), (2, 2), [65, 66, 67, 68], []⟩ 10).map
        (fun c => c.cursor) = some (0, 1) := by
  exact ⟨by decide, by decide, by decide⟩

/-- C8: counterexample.  After typing `AAA` on a fresh 10×5 console of
`src/console.rs` the cursor sits at `(3, 0)`; feeding `ESC` then `D`
(0x44, inside `0x40..=0x7E` and distinct from `[`) moves it to `(2, 0)`:
the single-byte ESC sequence is dispatched exactly like `CSI D` rather
than being logged and dropped, so the screen state is not unchanged. -/
theorem c8_esc_d_moves_cursor :
    (ConsoleRs.feed (ConsoleRs.Console.new (10, 5)) [65, 65, 65]).screen0.cursor
        = (3, 0)
    ∧ (ConsoleRs.feed (ConsoleRs.feed (ConsoleRs.Console.new (10, 5)) [65, 65, 65])
        [27, 68]).screen0.cursor = (2, 0)
    ∧ (((2 : Int), (0 : Int)) ≠ ((3 : Int), (0 : Int))) := by
  exact ⟨by decide, by decide, by decide⟩

/-- C9: counterexample.  With ctrl held, the key byte `a` (97) is written
unchanged — `keyBytes` maps only `c` — refuting the claimed `a..z → 1..26`
control transform. -/
theorem c9_ctrl_a_not_mapped :
    MainRs.keyBytes [97] false true = [97] ∧ [97] ≠ [1] := by
  exact ⟨by decide, by decide⟩

/-- C9 (amended): with ctrl held only the byte `c` (99) is translated, to
the control byte `3`, replacing the whole sequence and checked before the
shift transform; every other byte passes through with only the shift
transform applied — in particular the other lowercase letters stay
themselves rather than becoming `1..26`. -/
theorem c9_ctrl_only_c (b : Nat) (s : Bool) :
    MainRs.keyBytes [99] s true = [3]
    ∧ (b ≠ 99 → MainRs.keyBytes [b] s true = [MainRs.set_shift b s])
    ∧ (97 ≤ b → b ≤ 122 → b ≠ 99 → MainRs.keyBytes [b] false true = [b]) := by
  refine ⟨?_, ?_, ?_⟩
  · cases s <;> simp [MainRs.keyBytes, MainRs.set_shift]
  · intro hb
    simp [MainRs.keyBytes, hb]
  · intro h1 h2 hb
    simp [MainRs.keyBytes, MainRs.set_shift, hb]

/-- C9 witness: the amended theorem applied at the byte `a` (97) without
shift: ctrl leaves it unchanged. -/
theorem c9_ctrl_only_c_witness :
    (97 : Nat) ≠ 99 ∧ MainRs.keyBytes [97] false true = [97] :=
  ⟨by decide, (c9_ctrl_only_c 97 false).2.2 (by decide) (by decide) (by decide)⟩

/-- `withActive` never touches the primary screen when the alternate one is
active. -/
theorem withActive_screen0 (c : ConsoleRs.Console) (f) (h : c.sid ≠ 0) :
    (c.withActive f).screen0 = c.screen0 := by
  simp [ConsoleRs.Console.withActive, h]

/-- `proc_csi` never touches the primary screen when the alternate one is
active: every dispatch acts on `screen[sid]`, and the `h`/`l` handlers only
reassign `sid`. -/
theorem dispatch_screen0 (c : ConsoleRs.Console) (param : List Nat) (f : Nat)
    (h : c.sid ≠ 0) :
    ((c.dispatch param f).fst).screen0 = c.screen0 := by
  by_cases h1 : f = 68
  · simp [ConsoleRs.Console.dispatch, h1, ConsoleRs.Console.withActive, h]
  by_cases h2 : f = 67
  · simp [ConsoleRs.Console.dispatch, h2, ConsoleRs.Console.withActive, h]
  by_cases h3 : f = 65
  · simp [ConsoleRs.Console.dispatch, h3, ConsoleRs.Console.withActive, h]
  by_cases h4 : f = 66
  · simp [ConsoleRs.Console.dispatch, h4, ConsoleRs.Console.withActive, h]
  by_cases h5 : f = 72
  · simp only [ConsoleRs.Console.dispatch, h5]
    norm_num
    split <;> simp [ConsoleRs.Console.withActive, h]
  by_cases h6 : f = 74
  · simp [ConsoleRs.Console.dispatch, h6, ConsoleRs.Console.withActive, h]
  by_cases h7 : f = 75
  · simp [ConsoleRs.Console.dispatch, h7, ConsoleRs.Console.withActive, h]
  by_cases h8 : f = 109
  · simp [ConsoleRs.Console.dispatch, h8]
  by_cases h9 : f = 110
  · simp [ConsoleRs.Console.dispatch, h9]
  by_cases h10 : f = 104
  · simp only [ConsoleRs.Console.dispatch, h10]
    norm_num
    split <;> simp
  by_cases h11 : f = 108
  · simp only [ConsoleRs.Console.dispatch, h11]
    norm_num
    split <;> simp
  simp [ConsoleRs.Console.dispatch, h1, h2, h3, h4, h5, h6, h7, h8, h9, h10, h11]

theorem proc_csi_screen0 (c : ConsoleRs.Console) (h : c.sid ≠ 0) :
    ((c.proc_csi).fst).screen0 = c.screen0 := by
  unfold ConsoleRs.Console.proc_csi
  split
  · rfl
  · split
    · rfl
    · split
      · rfl
      · exact dispatch_screen0 _ _ _ h

/-- `put_char` never touches the primary screen when the alternate one is
active. -/
theorem put_char_screen0 (c : ConsoleRs.Console) (b : Nat) (h : c.sid ≠ 0) :
    ((c.put_char b).fst).screen0 = c.screen0 := by
  unfold ConsoleRs.Console.put_char
  split_ifs with h1 h2 h3 h4 h5
  · rfl
  · rfl
  · exact proc_csi_screen0 _ h
  · rfl
  · exact withActive_screen0 _ _ h
  · exact withActive_screen0 _ _ h

/-- C7: feeding the exact bytes of `ESC[?1049h` (from any console state)
switches `sid` to the alternate screen without touching either buffer;
while the alternate screen is active every single `put_char` leaves the
primary screen — all its cells and its cursor — unchanged; and feeding
`ESC[?1049l` switches back to the primary screen, again leaving both
buffers untouched. -/
theorem c7_alternate_screen (c : ConsoleRs.Console) (b : Nat) :
    (ConsoleRs.feed c ConsoleRs.altOn).sid = 1
    ∧ (ConsoleRs.feed c ConsoleRs.altOn).screen0 = c.screen0
    ∧ (ConsoleRs.feed c ConsoleRs.altOn).screen1 = c.screen1
    ∧ (c.sid = 1 → ((c.put_char b).fst).screen0 = c.screen0)
    ∧ (ConsoleRs.feed c ConsoleRs.altOff).sid = 0
    ∧ (ConsoleRs.feed c ConsoleRs.altOff).screen0 = c.screen0
    ∧ (ConsoleRs.feed c ConsoleRs.altOff).screen1 = c.screen1 := by
  have hOn : ConsoleRs.feed c ConsoleRs.altOn = { c with csi_buf := [], sid := 1 } := by
    simp [ConsoleRs.feed, ConsoleRs.feedc, ConsoleRs.Console.put_char,
      ConsoleRs.Console.proc_csi, ConsoleRs.Console.dispatch, csi_scan, csi_step,
      ConsoleRs.altOn, ConsoleRs.altOff]
  have hOff : ConsoleRs.feed c ConsoleRs.altOff = { c with csi_buf := [], sid := 0 } := by
    simp [ConsoleRs.feed, ConsoleRs.feedc, ConsoleRs.Console.put_char,
      ConsoleRs.Console.proc_csi, ConsoleRs.Console.dispatch, csi_scan, csi_step,
      ConsoleRs.altOn, ConsoleRs.altOff]
  refine ⟨?_, ?_, ?_, ?_, ?_, ?_, ?_⟩ <;>
    first
      | (rw [hOn])
      | (rw [hOff])
      | (intro hs; exact put_char_screen0 c b (by omega))

/-- C7 witness: on a concrete console with the alternate screen active,
writing the byte `A` leaves the primary screen untouched. -/
theorem c7_alternate_screen_witness :
    ({ ConsoleRs.Console.new (3, 2) with sid := 1 } : ConsoleRs.Console).sid = 1
    ∧ ((({ ConsoleRs.Console.new (3, 2) with sid := 1 } : ConsoleRs.Console).put_char
          65).fst).screen0
        = ({ ConsoleRs.Console.new (3, 2) with sid := 1 } : ConsoleRs.Console).screen0 :=
  ⟨rfl, (c7_alternate_screen { ConsoleRs.Console.new (3, 2) with sid := 1 } 65).2.2.2.1 rfl⟩

/-- With `x < W`, the cell index `x + k·W` determines column and row. -/
theorem decomp (W x k i : Nat) (hx : x < W) :
    i = x + k * W ↔ (i % W = x ∧ i / W = k) := by
  constructor
  · rintro rfl
    refine ⟨?_, ?_⟩
    · rw [Nat.add_mul_mod_self_right, Nat.mod_eq_of_lt hx]
    · rw [Nat.add_mul_div_right _ _ (by omega : 0 < W), Nat.div_eq_of_lt hx]
      omega
  · rintro ⟨h1, h2⟩
    conv_lhs => rw [← Nat.div_add_mod i W]
    rw [h1, h2]
    ring

/-- The column pass of `scroll_up` preserves the buffer length. -/
theorem inner_len (W x : Nat) : ∀ (k : Nat) (b : List Nat),
    ((List.range k).foldl
      (fun b2 y => b2.set (x + y * W) (nth b2 (x + (y + 1) * W))) b).length
      = b.length := by
  intro k
  induction k with
  | zero => intro b; rfl
  | succ k ih =>
    intro b
    rw [List.range_succ, List.foldl_append, List.foldl_cons, List.foldl_nil,
      List.length_set, ih]

/-- Cell contents after the column pass of `scroll_up` on column `x`:
rows `0..k` hold the old next-row value, everything else is unchanged. -/
theorem inner_nth (W x : Nat) (hx : x < W) : ∀ (k : Nat) (b : List Nat) (i : Nat),
    nth ((List.range k).foldl
        (fun b2 y => b2.set (x + y * W) (nth b2 (x + (y + 1) * W))) b) i
      = if i % W = x ∧ i / W < k then nth b (i + W) else nth b i := by
  intro k
  induction k with
  | zero => intro b i; simp
  | succ k ih =>
    intro b i
    rw [List.range_succ, List.foldl_append, List.foldl_cons, List.foldl_nil]
    have hdk := (decomp W x k (x + k * W) hx).mp rfl
    have hdk1 := (decomp W x (k + 1) (x + (k + 1) * W) hx).mp rfl
    have hv : nth ((List.range k).foldl
        (fun b2 y => b2.set (x + y * W) (nth b2 (x + (y + 1) * W))) b)
        (x + (k + 1) * W) = nth b (x + (k + 1) * W) := by
      rw [ih, if_neg (by omega)]
    by_cases hi : i = x + k * W
    · subst hi
      by_cases hlt : x + k * W < b.length
      · rw [nth_set_self _ _ (by rw [inner_len]; exact hlt) _, hv,
          if_pos ⟨hdk.1, by omega⟩]
        congr 1
        ring
      · have hge : b.length ≤ x + k * W := by omega
        have hge2 : ((List.range k).foldl
            (fun b2 y => b2.set (x + y * W) (nth b2 (x + (y + 1) * W))) b).length
            ≤ x + k * W := by rw [inner_len]; exact hge
        rw [nth_of_le _ _ (by rw [List.length_set]; exact hge2),
          if_pos ⟨hdk.1, by omega⟩, nth_of_le _ _ (by omega)]
    · rw [nth_set_ne _ _ _ hi _, ih]
      by_cases hc : i % W = x ∧ i / W < k
      · rw [if_pos hc, if_pos ⟨hc.1, by omega⟩]
      · rw [if_neg hc, if_neg ?_]
        intro hcc
        have hik : i / W = k := by omega
        exact hi ((decomp W x k i hx).mpr ⟨hcc.1, hik⟩)

/-- `scroll_up`'s nested loops preserve the buffer length. -/
theorem outer_len (W m : Nat) : ∀ (k : Nat) (b : List Nat),
    ((List.range k).foldl
      (fun bb x => (List.range m).foldl
        (fun b2 y => b2.set (x + y * W) (nth b2 (x + (y + 1) * W))) bb) b).length
      = b.length := by
  intro k
  induction k with
  | zero => intro b; rfl
  | succ k ih =>
    intro b
    rw [List.range_succ, List.foldl_append, List.foldl_cons, List.foldl_nil,
      inner_len, ih]

/-- Cell contents after the nested loops of `scroll_up`: every cell in the
first `k` columns and first `m` rows holds the old value of the cell one
row below; everything else is unchanged. -/
theorem outer_nth (W m : Nat) (_hW : 0 < W) : ∀ (k : Nat), k ≤ W →
    ∀ (b : List Nat) (i : Nat),
    nth ((List.range k).foldl
        (fun bb x => (List.range m).foldl
          (fun b2 y => b2.set (x + y * W) (nth b2 (x + (y + 1) * W))) bb) b) i
      = if i % W < k ∧ i / W < m then nth b (i + W) else nth b i := by
  intro k
  induction k with
  | zero => intro hk b i; simp
  | succ k ih =>
    intro hk b i
    rw [List.range_succ, List.foldl_append, List.foldl_cons, List.foldl_nil]
    rw [inner_nth W k (by omega)]
    by_cases hc1 : i % W = k ∧ i / W < m
    · have hmod : (i + W) % W = i % W := Nat.add_mod_right i W
      rw [if_pos hc1, ih (by omega), if_neg (by omega),
        if_pos ⟨by omega, hc1.2⟩]
    · rw [if_neg hc1, ih (by omega)]
      by_cases hc2 : i % W < k ∧ i / W < m
      · rw [if_pos hc2, if_pos ⟨by omega, hc2.2⟩]
      · rw [if_neg hc2, if_neg (by omega)]

/-- A row-fill loop preserves the buffer length. -/
theorem fill_len (W r v : Nat) : ∀ (k : Nat) (b : List Nat),
    ((List.range k).foldl (fun bb x => bb.set (x + r * W) v) b).length
      = b.length := by
  intro k
  induction k with
  | zero => intro b; rfl
  | succ k ih =>
    intro b
    rw [List.range_succ, List.foldl_append, List.foldl_cons, List.foldl_nil,
      List.length_set, ih]

/-- Cell contents after a row-fill loop over the first `k` columns of row
`r` (the shape of `clear_line` and `erase_line`). -/
theorem fill_nth (W r v : Nat) (_hW : 0 < W) : ∀ (k : Nat), k ≤ W →
    ∀ (b : List Nat) (i : Nat), i < b.length →
    nth ((List.range k).foldl (fun bb x => bb.set (x + r * W) v) b) i
      = if i % W < k ∧ i / W = r then v else nth b i := by
  intro k
  induction k with
  | zero => intro hk b i hi; simp
  | succ k ih =>
    intro hk b i hi
    rw [List.range_succ, List.foldl_append, List.foldl_cons, List.foldl_nil]
    by_cases hik : i = k + r * W
    · have hd := (decomp W k r i (by omega)).mp hik
      rw [hik, nth_set_self _ _ (by rw [fill_len]; omega) _, ← hik,
        if_pos ⟨by omega, hd.2⟩]
    · rw [nth_set_ne _ _ _ hik _, ih (by omega) b i hi]
      by_cases hc : i % W < k ∧ i / W = r
      · rw [if_pos hc, if_pos ⟨by omega, hc.2⟩]
      · rw [if_neg hc, if_neg ?_]
        intro hcc
        have him : i % W = k := by omega
        exact hik ((decomp W k r i (by omega)).mpr ⟨him, hcc.2⟩)

/-- C5 (amended): feeding `\n` with the cursor on the last row of the
`src/main.rs` console shifts the contents of rows `1..H` up by one row,
clears the bottom row to the empty byte `0` (not the space `0x20` the
claim states), and leaves the cursor at `(0, H-1)`. -/
theorem c5_newline_at_bottom (c : MainRs.Console) (W H : Nat) (cx : Int)
    (hW : 0 < W) (hH : 0 < H)
    (hsize : c.size = ((W : Int), (H : Int)))
    (hlen : c.buffer.length = W * H)
    (hbuf : c.csi_buf = [])
    (hcur : c.cursor = (cx, (H : Int) - 1)) :
    ∃ c2, c.put_char 10 = some c2
      ∧ c2.cursor = (0, (H : Int) - 1)
      ∧ (∀ x y : Nat, x < W → y < H - 1 →
          nth c2.buffer (x + y * W) = nth c.buffer (x + (y + 1) * W))
      ∧ (∀ x : Nat, x < W → nth c2.buffer (x + (H - 1) * W) = 0) := by
  obtain ⟨H1, rfl⟩ : ∃ h2, H = h2 + 1 := ⟨H - 1, by omega⟩
  obtain ⟨cur, sz, buf, csib⟩ := c
  simp only at hsize hlen hbuf hcur
  subst hsize hbuf hcur
  have hWt : ((W : Int)).toNat = W := Int.toNat_natCast W
  have hHt : ((((H1 + 1 : Nat) : Int)) - 1).toNat = H1 := by omega
  have e1 : ∀ (x y : Nat), ((x : Int) + (y : Int) * ((W : Nat) : Int)).toNat
      = x + y * W := by
    intro x y
    have hh : ((x : Int) + (y : Int) * ((W : Nat) : Int))
        = (((x + y * W : Nat)) : Int) := by push_cast; ring
    rw [hh, Int.toNat_natCast]
  have e2 : ∀ (x y : Nat), ((x : Int) + ((y : Int) + 1) * ((W : Nat) : Int)).toNat
      = x + (y + 1) * W := by
    intro x y
    have hh : ((x : Int) + ((y : Int) + 1) * ((W : Nat) : Int))
        = (((x + (y + 1) * W : Nat)) : Int) := by push_cast; ring
    rw [hh, Int.toNat_natCast]
  have e3 : ∀ (x : Nat), ((x : Int) + ((((H1 + 1 : Nat) : Int)) - 1)
      * ((W : Nat) : Int)).toNat = x + H1 * W := by
    intro x
    have hh : ((x : Int) + ((((H1 + 1 : Nat) : Int)) - 1) * ((W : Nat) : Int))
        = (((x + H1 * W : Nat)) : Int) := by push_cast; ring
    rw [hh, Int.toNat_natCast]
  have hstep : MainRs.Console.put_char
      ⟨(cx, ((H1 + 1 : Nat) : Int) - 1), ((W : Int), ((H1 + 1 : Nat) : Int)), buf, []⟩ 10
      = some (MainRs.Console.clear_line (MainRs.Console.scroll_up
          ⟨(0, ((H1 + 1 : Nat) : Int) - 1), ((W : Int), ((H1 + 1 : Nat) : Int)), buf, []⟩)) := by
    rw [MainRs.Console.put_char]
    rw [if_neg (by omega), if_neg (by simp)]
    rw [MainRs.Console.set_char, if_pos rfl]
    rw [MainRs.Console.cursor_newline]
    simp only
    rw [if_neg (by omega)]
  set S := MainRs.Console.scroll_up
      ⟨(0, ((H1 + 1 : Nat) : Int) - 1), ((W : Int), ((H1 + 1 : Nat) : Int)), buf, []⟩
    with hS
  have hSbuf : S.buffer = (List.range W).foldl
      (fun bb x => (List.range H1).foldl
        (fun b2 y => b2.set (x + y * W) (nth b2 (x + (y + 1) * W))) bb) buf := by
    rw [hS]
    simp only [MainRs.Console.scroll_up, e1, e2, hWt, hHt]
  have hSlen : S.buffer.length = W * (H1 + 1) := by
    rw [hSbuf, outer_len, hlen]
  have hSnth : ∀ i : Nat, nth S.buffer i
      = if i % W < W ∧ i / W < H1 then nth buf (i + W) else nth buf i := by
    intro i
    rw [hSbuf, outer_nth W H1 hW W le_rfl buf i]
  have hSrest : S.cursor = (0, ((H1 + 1 : Nat) : Int) - 1) ∧ S.size
      = ((W : Int), ((H1 + 1 : Nat) : Int)) := by
    rw [hS]
    exact ⟨rfl, rfl⟩
  refine ⟨MainRs.Console.clear_line S, hstep, ?_, ?_, ?_⟩
  · simp [MainRs.Console.clear_line, hSrest.1]
  · intro x y hx hy
    have hylt : y < H1 := by omega
    have hCbuf : (MainRs.Console.clear_line S).buffer = (List.range W).foldl
        (fun bb x => bb.set (x + H1 * W) 0) S.buffer := by
      simp only [MainRs.Console.clear_line, hSrest.1, hSrest.2, e3, hWt]
    have hi : x + y * W < S.buffer.length := by
      rw [hSlen]
      calc x + y * W < W + y * W := by omega
        _ ≤ W + H1 * W := by
            have := Nat.mul_le_mul_right W (by omega : y ≤ H1)
            omega
        _ = W * (H1 + 1) := by ring
    have hdiv := (decomp W x y (x + y * W) hx).mp rfl
    rw [hCbuf, fill_nth W H1 0 hW W le_rfl S.buffer _ hi,
      if_neg (by omega), hSnth, if_pos ⟨by omega, by omega⟩]
    congr 1
    ring
  · intro x hx
    have hCbuf : (MainRs.Console.clear_line S).buffer = (List.range W).foldl
        (fun bb x => bb.set (x + H1 * W) 0) S.buffer := by
      simp only [MainRs.Console.clear_line, hSrest.1, hSrest.2, e3, hWt]
    have hi : x + H1 * W < S.buffer.length := by
      rw [hSlen]
      calc x + H1 * W < W + H1 * W := by omega
        _ = W * (H1 + 1) := by ring
    have hdiv := (decomp W x H1 (x + H1 * W) hx).mp rfl
    have hgoal : (H1 + 1) - 1 = H1 := by omega
    rw [hgoal, hCbuf, fill_nth W H1 0 hW W le_rfl S.buffer _ hi,
      if_pos ⟨by omega, hdiv.2⟩]

/-- C5 amended-theorem witness: the 2×2 console with grid `[65,66,67,68]`
and cursor `(0, 1)` satisfies the hypotheses, so the amended description
of the bottom-row newline applies to it. -/
theorem c5_newline_at_bottom_witness :
    (0 : Nat) < 2 ∧ (∃ c2, MainRs.Console.put_char
        ⟨(0, 1), (2, 2), [65, 66, 67, 68], []⟩ 10 = some c2
      ∧ c2.cursor = (0, ((2 : Nat) : Int) - 1)
      ∧ (∀ x y : Nat, x < 2 → y < 2 - 1 →
          nth c2.buffer (x + y * 2) = nth [65, 66, 67, 68] (x + (y + 1) * 2))
      ∧ (∀ x : Nat, x < 2 → nth c2.buffer (x + (2 - 1) * 2) = 0)) :=
  ⟨by decide,
    c5_newline_at_bottom ⟨(0, 1), (2, 2), [65, 66, 67, 68], []⟩ 2 2 0
      (by decide) (by decide) (by decide) (by decide) (by decide) (by decide)⟩

/-- Replacing `csi_buf` by its own value is the identity. -/
theorem csi_eta (c : ConsoleRs.Console) (h : c.csi_buf = []) :
    ({ c with csi_buf := [] } : ConsoleRs.Console) = c := by
  cases c with
  | mk size csi s0 s1 sid => simp_all

/-- `feedc` splits over list append. -/
theorem feedc_append (l1 : List Nat) : ∀ (c : ConsoleRs.Console) (l2 : List Nat),
    ConsoleRs.feedc c (l1 ++ l2)
      = ((ConsoleRs.feedc (ConsoleRs.feedc c l1).fst l2).fst,
        (ConsoleRs.feedc c l1).snd ++ (ConsoleRs.feedc (ConsoleRs.feedc c l1).fst l2).snd) := by
  induction l1 with
  | nil => intro c l2; simp [ConsoleRs.feedc]
  | cons b rest ih =>
    intro c l2
    have h1 := ih (c.put_char b).fst l2
    simp only [List.cons_append, ConsoleRs.feedc, List.append_eq]
    rw [h1]
    simp [List.append_assoc]

/-- Parameter bytes (decimal digits) fed while a CSI sequence is pending
are only appended to `csi_buf`; no response is produced. -/
theorem feed_params (ps : List Nat) : ∀ c : ConsoleRs.Console, c.csi_buf ≠ [] →
    (∀ x ∈ ps, 48 ≤ x ∧ x ≤ 57) →
    ConsoleRs.feedc c ps = ({ c with csi_buf := c.csi_buf ++ ps }, []) := by
  induction ps with
  | nil =>
    intro c hne hd
    simp [ConsoleRs.feedc]
  | cons b rest ih =>
    intro c hne hd
    have hb := hd b (by simp)
    have hb27 : b ≠ 27 := by omega
    have hb91 : b ≠ 91 := by omega
    have hb64 : ¬ (64 ≤ b ∧ b < 128) := by omega
    simp only [ConsoleRs.feedc, ConsoleRs.Console.put_char, if_neg hb27]
    rw [if_pos hne, if_neg (fun hx => hb91 hx.2), if_neg hb64]
    rw [ih _ (by simp) (fun x hx => hd x (by simp [hx]))]
    simp

/-- Digit bytes only extend the parameter accumulator of the CSI scan. -/
theorem csi_step_digits (ps : List Nat) : ∀ acc : List Nat × Option Nat,
    (∀ x ∈ ps, 48 ≤ x ∧ x ≤ 57) →
    ps.foldl csi_step acc = (acc.fst ++ ps, acc.snd) := by
  induction ps with
  | nil => intro acc h; simp
  | cons b rest ih =>
    intro acc h
    have hb := h b (by simp)
    have hstep : csi_step acc b = (acc.fst ++ [b], acc.snd) := by
      simp only [csi_step]
      rw [if_pos ⟨hb.1, by omega⟩]
    rw [List.foldl_cons, hstep, ih _ (fun x hx => h x (by simp [hx]))]
    simp

/-- Scanning `[ ps... n` yields the digit bytes as parameters and the
final byte `n` (110). -/
theorem csi_scan_wrap (ps : List Nat) (h : ∀ x ∈ ps, 48 ≤ x ∧ x ≤ 57) :
    csi_scan ([91] ++ ps ++ [110]) = (ps, some 110) := by
  have h1 : csi_step ([], none) 91 = ([], some 91) := by
    simp [csi_step]
  have h2 : csi_step (ps, some 91) 110 = (ps, some 110) := by
    simp [csi_step]
  simp only [csi_scan, List.foldl_append, List.foldl_cons, List.foldl_nil]
  rw [h1, csi_step_digits ps ([], some 91) h]
  simp [csi_step]

/-- The `n` arm of the dispatch: clear `csi_buf` and report the cursor. -/
theorem dispatch_n (c : ConsoleRs.Console) (param : List Nat) :
    ConsoleRs.Console.dispatch c param 110
      = ({ c with csi_buf := [] },
        (c.active).report_cursor ((parse_i32 param).getD 0)) := by
  simp [ConsoleRs.Console.dispatch]

/-- C6: feeding `ESC[6n` from Ground returns exactly the CPR response
`ESC [ (cy+1) ; (cx+1) R` in ASCII for the active screen's cursor
`(cx, cy)`, and a CSI `n` sequence whose parameter bytes parse to anything
other than `6` produces no response. -/
theorem c6_cursor_report (c : ConsoleRs.Console) (ps : List Nat)
    (h : c.csi_buf = []) :
    ConsoleRs.feedc c [27, 91, 54, 110]
      = (c, [[27, 91] ++ decDigits ((c.active).cursor.snd + 1).toNat ++ [59]
          ++ decDigits ((c.active).cursor.fst + 1).toNat ++ [82]])
    ∧ ((∀ x ∈ ps, 48 ≤ x ∧ x ≤ 57) → (parse_i32 ps).getD 0 ≠ 6 →
        ConsoleRs.feedc c ([27, 91] ++ ps ++ [110]) = (c, [])) := by
  constructor
  · have : ConsoleRs.feedc c [27, 91, 54, 110]
        = ({ c with csi_buf := [] },
          [[27, 91] ++ decDigits ((c.active).cursor.snd + 1).toNat ++ [59]
            ++ decDigits ((c.active).cursor.fst + 1).toNat ++ [82]]) := by
      simp [ConsoleRs.feedc, ConsoleRs.Console.put_char, ConsoleRs.Console.proc_csi,
        ConsoleRs.Console.dispatch, csi_scan, csi_step, parse_i32, digitsVal,
        ConsoleRs.ScreenBuffer.report_cursor, ConsoleRs.Console.active, h]
    rw [this, csi_eta c h]
  · intro hps hval
    have step27 : c.put_char 27 = ({ c with csi_buf := [27] }, none) := by
      simp [ConsoleRs.Console.put_char]
    have step91 : ({ c with csi_buf := [27] } : ConsoleRs.Console).put_char 91
        = ({ c with csi_buf := [27, 91] }, none) := by
      simp [ConsoleRs.Console.put_char]
    have hmid : ConsoleRs.feedc c ([27, 91] ++ ps ++ [110])
        = ConsoleRs.feedc ({ c with csi_buf := [27, 91] }) (ps ++ [110]) := by
      simp only [List.append_assoc, List.cons_append, List.nil_append]
      simp [ConsoleRs.feedc, step27, step91]
    rw [hmid, feedc_append ps]
    rw [feed_params ps _ (by simp) hps]
    have hfin : ConsoleRs.feedc ({ c with csi_buf := [27, 91] ++ ps }) [110]
        = (c, []) := by
      have hne : ([27, 91] ++ ps : List Nat) ≠ [] := by simp
      have hlen : ¬ (([27, 91] ++ ps : List Nat).length = 1 ∧ (110 : Nat) = 91) := by
        simp
      simp only [ConsoleRs.feedc, ConsoleRs.Console.put_char]
      rw [if_neg (by omega : ¬ (110 : Nat) = 27), if_pos (by simp),
        if_neg hlen, if_pos (by omega : (64 : Nat) ≤ 110 ∧ (110 : Nat) < 128)]
      have hbuf2 : ([27, 91] ++ ps : List Nat) ++ [110] = 27 :: ([91] ++ ps ++ [110]) := by
        simp
      simp only [ConsoleRs.Console.proc_csi, hbuf2]
      rw [if_neg (by simp), if_neg (by simp)]
      rw [show (27 :: ([91] ++ ps ++ [110])).tail = [91] ++ ps ++ [110] from rfl]
      rw [csi_scan_wrap ps hps]
      simp only [dispatch_n]
      simp [ConsoleRs.ScreenBuffer.report_cursor, ConsoleRs.Console.active, hval,
        csi_eta c h]
    rw [hfin]
    simp

/-- C6 witness: the report theorem applied to the 5×4 console with active
cursor `(3, 2)`: `ESC[6n` answers `ESC[3;4R`, while `ESC[5n` answers
nothing. -/
theorem c6_cursor_report_witness :
    c6Console.csi_buf = []
    ∧ ConsoleRs.feedc c6Console [27, 91, 54, 110]
        = (c6Console, [[27, 91, 51, 59, 52, 82]])
    ∧ (∀ x ∈ [53], 48 ≤ x ∧ x ≤ 57)
    ∧ (parse_i32 [53]).getD 0 ≠ 6
    ∧ ConsoleRs.feedc c6Console ([27, 91] ++ [53] ++ [110]) = (c6Console, []) := by
  have h := c6_cursor_report c6Console [53] rfl
  refine ⟨rfl, ?_, by decide, by decide, h.2 (by decide) (by decide)⟩
  rw [h.1]
  decide

/-- `withActive` leaves the size unchanged. -/
theorem withActive_size (c : ConsoleRs.Console) (f) :
    (c.withActive f).size = c.size := by
  unfold ConsoleRs.Console.withActive
  split <;> rfl

/-- `withActive` leaves `csi_buf` unchanged. -/
theorem withActive_csi (c : ConsoleRs.Console) (f) :
    (c.withActive f).csi_buf = c.csi_buf := by
  unfold ConsoleRs.Console.withActive
  split <;> rfl

/-- `withActive` leaves `sid` unchanged. -/
theorem withActive_sid (c : ConsoleRs.Console) (f) :
    (c.withActive f).sid = c.sid := by
  unfold ConsoleRs.Console.withActive
  split <;> rfl

/-- The primary screen after `withActive`. -/
theorem withActive_s0 (c : ConsoleRs.Console) (f) :
    (c.withActive f).screen0 = if c.sid = 0 then f c.screen0 else c.screen0 := by
  unfold ConsoleRs.Console.withActive
  split <;> simp_all

/-- The alternate screen after `withActive`. -/
theorem withActive_s1 (c : ConsoleRs.Console) (f) :
    (c.withActive f).screen1 = if c.sid = 0 then c.screen1 else f c.screen1 := by
  unfold ConsoleRs.Console.withActive
  split <;> simp_all

/-- Every dispatch clears `csi_buf` (returning the parser to Ground). -/
theorem dispatch_clears (c : ConsoleRs.Console) (param : List Nat) (f : Nat) :
    ((c.dispatch param f).fst).csi_buf = [] := by
  by_cases h1 : f = 68
  · simp [ConsoleRs.Console.dispatch, h1]
  by_cases h2 : f = 67
  · simp [ConsoleRs.Console.dispatch, h2]
  by_cases h3 : f = 65
  · simp [ConsoleRs.Console.dispatch, h3]
  by_cases h4 : f = 66
  · simp [ConsoleRs.Console.dispatch, h4]
  by_cases h5 : f = 72
  · simp only [ConsoleRs.Console.dispatch, h5]
    norm_num
    split <;> simp
  by_cases h6 : f = 74
  · simp [ConsoleRs.Console.dispatch, h6]
  by_cases h7 : f = 75
  · simp [ConsoleRs.Console.dispatch, h7]
  by_cases h8 : f = 109
  · simp [ConsoleRs.Console.dispatch, h8]
  by_cases h9 : f = 110
  · simp [ConsoleRs.Console.dispatch, h9]
  by_cases h10 : f = 104
  · simp only [ConsoleRs.Console.dispatch, h10]
    norm_num
    split <;> simp
  by_cases h11 : f = 108
  · simp only [ConsoleRs.Console.dispatch, h11]
    norm_num
    split <;> simp
  simp [ConsoleRs.Console.dispatch, h1, h2, h3, h4, h5, h6, h7, h8, h9, h10, h11]

/-- The dispatch is insensitive to whether the buffer was `ESC b` or
`ESC [ b`: only the `h`/`l` handlers read `csi_buf`, and neither
two-or-three-byte buffer equals the eight-byte `ESC[?1049h`/`l` literals. -/
theorem dispatch_esc_equiv (c : ConsoleRs.Console) (b : Nat) :
    ConsoleRs.Console.dispatch { c with csi_buf := [27, b] } [] b
      = ConsoleRs.Console.dispatch { c with csi_buf := [27, 91, b] } [] b := by
  by_cases h1 : b = 68
  · simp [ConsoleRs.Console.dispatch, h1, withActive_size, withActive_sid,
      withActive_s0, withActive_s1]
  by_cases h2 : b = 67
  · simp [ConsoleRs.Console.dispatch, h2, withActive_size, withActive_sid,
      withActive_s0, withActive_s1]
  by_cases h3 : b = 65
  · simp [ConsoleRs.Console.dispatch, h3, withActive_size, withActive_sid,
      withActive_s0, withActive_s1]
  by_cases h4 : b = 66
  · simp [ConsoleRs.Console.dispatch, h4, withActive_size, withActive_sid,
      withActive_s0, withActive_s1]
  by_cases h5 : b = 72
  · simp [ConsoleRs.Console.dispatch, h5, splitSemi, withActive_size, withActive_sid,
      withActive_s0, withActive_s1]
  by_cases h6 : b = 74
  · simp [ConsoleRs.Console.dispatch, h6, withActive_size, withActive_sid,
      withActive_s0, withActive_s1]
  by_cases h7 : b = 75
  · simp [ConsoleRs.Console.dispatch, h7, withActive_size, withActive_sid,
      withActive_s0, withActive_s1]
  by_cases h8 : b = 109
  · simp [ConsoleRs.Console.dispatch, h8]
  by_cases h9 : b = 110
  · simp [ConsoleRs.Console.dispatch, h9, ConsoleRs.Console.active]
  by_cases h10 : b = 104
  · simp [ConsoleRs.Console.dispatch, h10, ConsoleRs.altOn]
  by_cases h11 : b = 108
  · simp [ConsoleRs.Console.dispatch, h11, ConsoleRs.altOff]
  simp [ConsoleRs.Console.dispatch, h1, h2, h3, h4, h5, h6, h7, h8, h9, h10, h11]

/-- C8 (amended): in the Escape state (`csi_buf = [27]`), a final byte in
`0x40..=0x7E` other than `[` is pushed and dispatched through `proc_csi`
exactly as if the sequence had been the CSI `ESC [ b` with empty
parameters — recognised final bytes act on the screen (e.g. `ESC D` moves
the cursor left like `ESC[D`) and only unrecognised ones are dropped — and
the parser returns to Ground (`csi_buf = []`) in every case. -/
theorem c8_escape_final_dispatches_like_csi (c : ConsoleRs.Console) (b : Nat)
    (hesc : c.csi_buf = [27]) (h1 : 64 ≤ b) (h2 : b ≤ 126) (h3 : b ≠ 91) :
    c.put_char b = ConsoleRs.Console.put_char { c with csi_buf := [27, 91] } b
    ∧ ((c.put_char b).fst).csi_buf = [] := by
  have hb27 : b ≠ 27 := by omega
  have hd : 64 ≤ b ∧ b < 128 := ⟨h1, by omega⟩
  have hstep : csi_step ([], none) b = ([], some b) := by
    simp only [csi_step]
    rw [if_neg (by omega : ¬ (48 ≤ b ∧ b ≤ 63)),
      if_pos (⟨h1, by omega⟩ : 64 ≤ b ∧ b ≤ 127)]
  have hscan1 : csi_scan [b] = ([], some b) := by
    simp only [csi_scan, List.foldl_cons, List.foldl_nil]
    exact hstep
  have hscan2 : csi_scan [91, b] = ([], some b) := by
    have e1 : csi_step ([], none) 91 = ([], some 91) := by simp [csi_step]
    have e2 : csi_step ([], some 91) b = ([], some b) := by
      simp only [csi_step]
      rw [if_neg (by omega : ¬ (48 ≤ b ∧ b ≤ 63)),
        if_pos (⟨h1, by omega⟩ : 64 ≤ b ∧ b ≤ 127)]
    simp only [csi_scan, List.foldl_cons, List.foldl_nil, e1, e2]
  have hL : c.put_char b
      = ConsoleRs.Console.proc_csi { c with csi_buf := [27, b] } := by
    simp only [ConsoleRs.Console.put_char]
    rw [if_neg hb27, if_pos (by simp [hesc]),
      if_neg (fun hx => h3 hx.2), if_pos hd]
    rw [hesc]
    simp
  have hR : ConsoleRs.Console.put_char { c with csi_buf := [27, 91] } b
      = ConsoleRs.Console.proc_csi { c with csi_buf := [27, 91, b] } := by
    simp only [ConsoleRs.Console.put_char]
    rw [if_neg hb27, if_pos (by simp), if_neg (by simp [h3]), if_pos hd]
    simp
  have hPL : ConsoleRs.Console.proc_csi { c with csi_buf := [27, b] }
      = ConsoleRs.Console.dispatch { c with csi_buf := [27, b] } [] b := by
    simp only [ConsoleRs.Console.proc_csi]
    rw [if_neg (by simp), if_neg (by simp)]
    simp [hscan1]
  have hPR : ConsoleRs.Console.proc_csi { c with csi_buf := [27, 91, b] }
      = ConsoleRs.Console.dispatch { c with csi_buf := [27, 91, b] } [] b := by
    simp only [ConsoleRs.Console.proc_csi]
    rw [if_neg (by simp), if_neg (by simp)]
    simp [hscan2]
  constructor
  · rw [hL, hR, hPL, hPR, dispatch_esc_equiv]
  · rw [hL, hPL, dispatch_clears]

/-- C8 amended-theorem witness: applied with a concrete console in Escape
state and the final byte `D` (68). -/
theorem c8_escape_final_dispatches_like_csi_witness :
    ({ ConsoleRs.Console.new (4, 3) with csi_buf := [27] } : ConsoleRs.Console).csi_buf
        = [27]
    ∧ (64 : Nat) ≤ 68 ∧ (68 : Nat) ≤ 126 ∧ (68 : Nat) ≠ 91
    ∧ ({ ConsoleRs.Console.new (4, 3) with csi_buf := [27] } : ConsoleRs.Console).put_char 68
        = ConsoleRs.Console.put_char
            { ({ ConsoleRs.Console.new (4, 3) with csi_buf := [27] } : ConsoleRs.Console)
              with csi_buf := [27, 91] } 68 :=
  ⟨rfl, by decide, by decide, by decide,
    (c8_escape_final_dispatches_like_csi
      { ConsoleRs.Console.new (4, 3) with csi_buf := [27] } 68 rfl
      (by decide) (by decide) (by decide)).1⟩

/-- C10: with an escape sequence pending (`csi_buf` non-empty), a byte
that does not complete it — not a dispatching final byte in `0x40..0x7F`,
or the `[` that extends `ESC` to `CSI` — leaves both screens, `sid` and
the response untouched and (unless it is `ESC` itself, which restarts the
accumulator) only appends to `csi_buf`; a byte that does complete it makes
`put_char` exactly the dispatch `proc_csi` on the grown buffer. -/
theorem c10_accumulation_is_pure (c : ConsoleRs.Console) (b : Nat)
    (hne : c.csi_buf ≠ []) :
    (¬ (64 ≤ b ∧ b < 128 ∧ ¬ (c.csi_buf.length = 1 ∧ b = 91)) →
      ((c.put_char b).fst.screen0 = c.screen0
        ∧ (c.put_char b).fst.screen1 = c.screen1
        ∧ (c.put_char b).fst.sid = c.sid
        ∧ (c.put_char b).snd = none
        ∧ (b ≠ 27 → (c.put_char b).fst.csi_buf = c.csi_buf ++ [b])))
    ∧ ((64 ≤ b ∧ b < 128 ∧ ¬ (c.csi_buf.length = 1 ∧ b = 91)) →
      c.put_char b = ConsoleRs.Console.proc_csi { c with csi_buf := c.csi_buf ++ [b] }) := by
  constructor
  · intro hnd
    by_cases h27 : b = 27
    · subst h27
      simp [ConsoleRs.Console.put_char]
    · by_cases hbr : c.csi_buf.length = 1 ∧ b = 91
      · simp [ConsoleRs.Console.put_char, h27, hne, hbr]
      · have hkey : ¬ (64 ≤ b ∧ b < 128) := fun hb => hnd ⟨hb.1, hb.2, hbr⟩
        simp [ConsoleRs.Console.put_char, h27, hne, hbr, hkey]
  · intro hd
    have h27 : b ≠ 27 := by omega
    simp [ConsoleRs.Console.put_char, h27, hne, hd.2.2, hd.1, hd.2.1]

/-- C10 witness: applied with the pending buffer `ESC[` and the parameter
byte `5` (0x35), which only appends. -/
theorem c10_accumulation_is_pure_witness :
    ({ ConsoleRs.Console.new (3, 2) with csi_buf := [27, 91] } : ConsoleRs.Console).csi_buf ≠ []
    ∧ ¬ ((64 : Nat) ≤ 53 ∧ 53 < 128
        ∧ ¬ (({ ConsoleRs.Console.new (3, 2) with csi_buf := [27, 91] } :
            ConsoleRs.Console).csi_buf.length = 1 ∧ 53 = 91))
    ∧ (({ ConsoleRs.Console.new (3, 2) with csi_buf := [27, 91] } :
          ConsoleRs.Console).put_char 53).fst.csi_buf = [27, 91, 53] :=
  ⟨by decide, by decide,
    ((c10_accumulation_is_pure { ConsoleRs.Console.new (3, 2) with csi_buf := [27, 91] } 53
      (by decide)).1 (by decide)).2.2.2.2 (by decide)⟩

end Fsdterm
